import Mathlib

/-!
Shallow embedding of the PGRKAM analytics and recommendation service
(`main.py`, with record schemas in `schemas.py`).

Documents read from and written to the record store are dynamic: a document is
an association list from field names to dynamic values (`BVal`).  Python
numbers are embedded exactly: `int` as `ℤ`, `float` as `ℚ` (the scoring
arithmetic of the service only ever produces rationals).  `None` and absent
fields both read back as `BVal.vnull`, matching `dict.get`.

The store operations used by `main.py` come from two places: the `pymongo`
collection API (`find_one`, `find`, `update_one`), which the spec treats as an
external Record Store with the contract of section 6, and the repository
module `database.py` (`create_document`, `get_documents`), which is not among
the sources; the latter two are modelled from the spec and marked as such.
-/

/-- Dynamic (Python/Mongo) field value: int, float, string, list of strings,
nested document, or null.  Skill and requirement lists are lists of strings in
every schema, so `vlist` carries `List String`. -/
inductive BVal where
  | vint (n : ℤ)
  | vfloat (q : ℚ)
  | vstr (s : String)
  | vlist (l : List String)
  | vdict (d : List (String × BVal))
  | vnull

/-- A stored document: an association list from field names to values. -/
abbrev Doc := List (String × BVal)

/-- Python truthiness of a value: `0`, `0.0`, `""`, `[]`, `{}` and `None` are
falsy, everything else is truthy. -/
def truthy : BVal → Bool
  | .vint n => n != 0
  | .vfloat q => q != 0
  | .vstr s => s != ""
  | .vlist l => !l.isEmpty
  | .vdict d => !d.isEmpty
  | .vnull => false

/-- Python `x or y`: `x` if truthy, else `y`. -/
def pyOr (a b : BVal) : BVal := if truthy a then a else b

/-- Python `d.get(k)`: the stored value, or `None` when the key is absent. -/
def dget (d : Doc) (k : String) : BVal :=
  match d.lookup k with
  | some v => v
  | none => .vnull

/-- Python `d.get(k, default)`. -/
def getD (d : Doc) (k : String) (dflt : BVal) : BVal :=
  match d.lookup k with
  | some v => v
  | none => dflt

/-- Python `isinstance(v, (int, float))`, together with the numeric value. -/
def asNum : BVal → Option ℚ
  | .vint n => some (n : ℚ)
  | .vfloat q => some q
  | _ => none

/-- Whether a value is a Python `int` (`isinstance(v, int)`). -/
def isIntVal : BVal → Bool
  | .vint _ => true
  | _ => false

/-- Reads a string-list field the way `set(x or [])` consumes it: a stored
list is taken as is, an absent field or `None` yields `[]`.  A stored value of
any other type would either raise in Python or be iterated character-wise;
profiles and jobs written through the service always store genuine string
lists here, and the theorems that depend on this field carry a `wfStrList`
hypothesis restricting to that case. -/
def strListOf : BVal → List String
  | .vlist l => l
  | _ => []

/-- The values `strListOf` is faithful for: a genuine list, `None`, or absent. -/
def wfStrList : BVal → Bool
  | .vlist _ => true
  | .vnull => true
  | _ => false

/-- Jaccard similarity from `main.py`: `sa, sb = set(a or []), set(b or [])`;
`0.0` when both sets are empty, otherwise `len(sa & sb) / len(sa | sb)` with a
redundant guard against an empty union.  `List.toFinset` is the embedding of
`set(...)`. -/
def jaccard (a b : List String) : ℚ :=
  let sa := a.toFinset
  let sb := b.toFinset
  if sa = ∅ ∧ sb = ∅ then 0
  else
    let inter := (sa ∩ sb).card
    let union := (sa ∪ sb).card
    if union = 0 then 0 else (inter : ℚ) / (union : ℚ)

/-- Python `round(x, 3)`: round to the nearest multiple of `1/1000`.  Mathlib
`round` breaks ties upward while Python breaks them to even, but no claim
depends on the tie rule. -/
def round3 (q : ℚ) : ℚ := ((round (q * 1000) : ℤ) : ℚ) / 1000

/-- One entry of the recommendation response:
`{"job_id": ..., "title": ..., "score": ...}`. -/
structure ScoredJob where
  job_id : BVal
  title : BVal
  score : ℚ

/-- The sort relation of `scored.sort(key=lambda x: x["score"], reverse=True)`:
descending by score. -/
def scoreGE (x y : ScoredJob) : Prop := y.score ≤ x.score

instance : DecidableRel scoreGE :=
  fun x y => inferInstanceAs (Decidable (y.score ≤ x.score))

instance : IsTotal ScoredJob scoreGE := ⟨fun a b => le_total b.score a.score⟩

instance : IsTrans ScoredJob scoreGE := ⟨fun _ _ _ h1 h2 => le_trans h2 h1⟩

/-- The raw (unrounded) score of one candidate job in `recommend_jobs`:
Jaccard similarity of the skills and requirements, multiplied by `0.8` when
the job has a numeric `min_experience`, the user a numeric
`experience_years`, and the experience is strictly below the threshold. -/
def rawScore (user job : Doc) : ℚ :=
  let score := jaccard (strListOf (dget user "skills")) (strListOf (dget job "requirements"))
  match asNum (dget job "min_experience"), asNum (dget user "experience_years") with
  | some min_exp, some exp => if exp < min_exp then score * 0.8 else score
  | _, _ => score

/-- The entry appended for one candidate job, with the score rounded to three
decimals: `{"job_id": job.get("job_id"), "title": job.get("title"), "score":
round(score, 3)}`. -/
def scoreEntry (user job : Doc) : ScoredJob :=
  ⟨dget job "job_id", dget job "title", round3 (rawScore user job)⟩

/-- The record store: one list of documents per collection used by the
service. -/
structure Store where
  events : List Doc
  userprofile : List Doc
  jobs : List Doc
  applicationoutcome : List Doc

/-- Modelled from the spec: `get_documents` lives in `database.py`, which is
not among the sources.  Section 6 specifies `find(collection, filter, limit)`
as returning an ordered sequence of at most `limit` matching documents, so a
filterless fetch is modelled as the first `limit` documents of the
collection. -/
def get_documents (coll : List Doc) (limit : ℕ) : List Doc := coll.take limit

/-- Modelled from the spec: `create_document` lives in `database.py`, which is
not among the sources.  Section 6 specifies `insert(collection, document)` as
storing a new document; modelled as appending it to the collection. -/
def create_document (coll : List Doc) (d : Doc) : List Doc := coll ++ [d]

/-- The Mongo filter `{"user_id": uid}`: the document field equals the given
string. -/
def userIdMatches (uid : String) (d : Doc) : Bool :=
  match dget d "user_id" with
  | .vstr s => s == uid
  | _ => false

/-- Record Store contract of section 6: `find_one("userprofile",
{"user_id": uid})` returns the first matching document, if any. -/
def find_one_userprofile (st : Store) (uid : String) : Option Doc :=
  st.userprofile.find? (userIdMatches uid)

/-- A raised `HTTPException(status_code, detail)`. -/
structure HTTPError where
  status_code : ℕ
  detail : String

/-- The recommendation endpoint `recommend_jobs(user_id, top_k)`: resolve the
user (`404` when absent), fetch at most `1000` jobs, score each, sort the
entries by score descending (Python sort is stable; `insertionSort` with the
reflexive relation `scoreGE` is the stable descending sort), and return the
first `top_k`. -/
def recommend_jobs (st : Store) (user_id : String) (top_k : ℕ) :
    Except HTTPError (String × List ScoredJob) :=
  match find_one_userprofile st user_id with
  | none => .error ⟨404, "User not found"⟩
  | some user =>
    let jobs := get_documents st.jobs 1000
    let scored := jobs.map (scoreEntry user)
    .ok (user_id, (scored.insertionSort scoreGE).take top_k)

/-- ASCII lowercasing of a string, character by character: the embedding of
Python `str.lower()` on the outcome labels. -/
def lowerStr (s : String) : String := ⟨s.data.map Char.toLower⟩

/-- Python `str(o.get("outcome")).lower() == "success"`.  Only a string field
can pass the test: `str` of `None` is `"None"`, of a number a digit string,
and of a list or dict a bracketed rendering, none of which lowercases to
`"success"`; so the embedding compares the lowercased field for strings and is
`false` for every other value. -/
def isSuccessOutcome : BVal → Bool
  | .vstr s => lowerStr s == "success"
  | _ => false

/-- The response of the success-rate endpoint:
`{"user_id": ..., "total": ..., "success": ..., "rate": ...}`. -/
structure SuccessRateResult where
  user_id : String
  total : ℕ
  success : ℕ
  rate : ℚ

/-- The success-rate endpoint: all outcome documents of the user (unbounded
find), the count of case-insensitive `"success"` labels, and their ratio
(`0.0` for no outcomes), rounded to three decimals.  It has no failure
path. -/
def success_rate (st : Store) (user_id : String) : SuccessRateResult :=
  let outcomes := st.applicationoutcome.filter (userIdMatches user_id)
  let total := outcomes.length
  let success := outcomes.countP (fun o => isSuccessOutcome (dget o "outcome"))
  let rate := if total ≠ 0 then (success : ℚ) / (total : ℚ) else 0
  ⟨user_id, total, success, round3 rate⟩

/-- Python key equality for the frequency dictionaries.  Counting keys are
always truthy hashable scalars in any run that does not raise (a list or dict
key would raise `TypeError: unhashable` in Python), so lists and dicts never
match. -/
def BVal.keyEq : BVal → BVal → Bool
  | .vint m, .vint n => m == n
  | .vfloat p, .vfloat q => p == q
  | .vstr s, .vstr t => s == t
  | .vnull, .vnull => true
  | _, _ => false

/-- Increment the count of key `k` in a frequency table, inserting it at count
`1` when absent: `counts[k] = counts.get(k, 0) + 1`. -/
def bumpB : List (BVal × ℕ) → BVal → List (BVal × ℕ)
  | [], k => [(k, 1)]
  | (k2, n) :: rest, k =>
    if k2.keyEq k then (k2, n + 1) :: rest else (k2, n) :: bumpB rest k

/-- Python `(e.get("properties", {}) or {})` viewed as a document.  A truthy
non-dict value stored under `properties` would raise `AttributeError` on the
subsequent `.get` in Python; events written through the tracking endpoint
always carry a dict, and that case is modelled as the empty dict. -/
def propsOf (e : Doc) : Doc :=
  match pyOr (getD e "properties" (.vdict [])) (.vdict []) with
  | .vdict d => d
  | _ => []

/-- The channel value the overview derives for one event:
`(e.get("properties", {}) or {}).get("channel") or e.get("channel")`. -/
def eventChannel (e : Doc) : BVal :=
  pyOr (dget (propsOf e) "channel") (dget e "channel")

/-- The channel frequency table of the overview: count `eventChannel e` for
every event whose derived channel is truthy. -/
def channel_counts (events : List Doc) : List (BVal × ℕ) :=
  events.foldl
    (fun acc e =>
      let ch := eventChannel e
      if truthy ch then bumpB acc ch else acc)
    []

/-- The page frequency table of the overview: count `e.get("page")` for every
event where it is truthy. -/
def page_counts (events : List Doc) : List (BVal × ℕ) :=
  events.foldl
    (fun acc e =>
      let pg := dget e "page"
      if truthy pg then bumpB acc pg else acc)
    []

/-- One demographic frequency table of the overview (used for `gender`,
`education` and `location`): count the field value for every user where it is
truthy. -/
def field_counts (users : List Doc) (key : String) : List (BVal × ℕ) :=
  users.foldl
    (fun acc u =>
      let v := dget u key
      if truthy v then bumpB acc v else acc)
    []

/-- Increment the count of `k` in a string-keyed frequency table. -/
def bump (f : String → ℕ) (k : String) : String → ℕ :=
  fun s => if s = k then f s + 1 else f s

/-- The age-bucket label of an integer age, exactly as the chain of
comparisons in the overview assigns it. -/
def ageBucket (age : ℤ) : String :=
  if age < 18 then "<18"
  else if age < 25 then "18-24"
  else if age < 35 then "25-34"
  else if age < 45 then "35-44"
  else "45+"

/-- The age-bucket counts of the overview: every user whose `age` field is an
`int` is tallied under its bucket label; every other user is skipped.  All
five fixed keys start at count `0`, so the table is a total function from
labels to counts. -/
def age_buckets (users : List Doc) : String → ℕ :=
  users.foldl
    (fun acc u =>
      match dget u "age" with
      | .vint a => bump acc (ageBucket a)
      | _ => acc)
    (fun _ => 0)

/-- The response of the overview endpoint.  The source fills the channel and
page tables in one loop over the events and the demographic tables in one loop
over the users; the accumulators are independent, so they are embedded as one
fold each. -/
structure Overview where
  channels : List (BVal × ℕ)
  pages : List (BVal × ℕ)
  gender : List (BVal × ℕ)
  education : List (BVal × ℕ)
  location : List (BVal × ℕ)
  ageBuckets : String → ℕ
  samples_events : ℕ
  samples_users : ℕ

/-- The overview endpoint: fetch at most `limit` events and users, aggregate,
and report the sample sizes actually examined. -/
def analytics_overview (st : Store) (limit : ℕ) : Overview :=
  let events := get_documents st.events limit
  let users := get_documents st.userprofile limit
  ⟨channel_counts events, page_counts events,
   field_counts users "gender", field_counts users "education",
   field_counts users "location", age_buckets users,
   events.length, users.length⟩

/-- The validated body of the profile-upsert endpoint
(`UpsertUserProfileRequest` in `main.py`): `user_id` required, every other
field optional. -/
structure UpsertUserProfileRequest where
  user_id : String
  name : Option String
  email : Option String
  age : Option ℤ
  gender : Option String
  location : Option String
  education : Option String
  experience_years : Option ℚ
  skills : Option (List String)
  channel : Option String

/-- One optional entry of the dumped payload: present fields contribute their
pair, absent fields contribute nothing. -/
def optEntry (k : String) : Option BVal → Doc
  | some v => [(k, v)]
  | none => []

/-- Python `{k: v for k, v in payload.model_dump().items() if v is not None}`:
the submitted fields with the null ones dropped, in declaration order. -/
def payloadData (p : UpsertUserProfileRequest) : Doc :=
  [("user_id", BVal.vstr p.user_id)]
    ++ optEntry "name" (p.name.map .vstr)
    ++ optEntry "email" (p.email.map .vstr)
    ++ optEntry "age" (p.age.map .vint)
    ++ optEntry "gender" (p.gender.map .vstr)
    ++ optEntry "location" (p.location.map .vstr)
    ++ optEntry "education" (p.education.map .vstr)
    ++ optEntry "experience_years" (p.experience_years.map .vfloat)
    ++ optEntry "skills" (p.skills.map .vlist)
    ++ optEntry "channel" (p.channel.map .vstr)

/-- Mongo `$set` of a single field: replace the first binding of the key, or
add the field when absent. -/
def setField (d : Doc) (k : String) (v : BVal) : Doc :=
  match d with
  | [] => [(k, v)]
  | (k2, v2) :: rest => if k2 = k then (k2, v) :: rest else (k2, v2) :: setField rest k v

/-- Mongo `update_one(..., {"$set": data})` on a matched document: set every
field of `data` in turn. -/
def setFields (d : Doc) (data : Doc) : Doc :=
  data.foldl (fun acc kv => setField acc kv.1 kv.2) d

/-- Apply `f` to the first document matching `p` (the document `update_one`
addresses through the `_id` of the `find_one` result). -/
def updateFirst (p : Doc → Bool) (f : Doc → Doc) : List Doc → List Doc
  | [] => []
  | d :: rest => if p d then f d :: rest else d :: updateFirst p f rest

/-- The profile-upsert endpoint: drop the null fields of the payload, then
merge them into the existing document of that `user_id` via `$set`, or insert
them as a new document when no profile exists. -/
def upsert_user_profile (st : Store) (p : UpsertUserProfileRequest) : Store :=
  let data := payloadData p
  match find_one_userprofile st p.user_id with
  | some _ =>
    ⟨st.events,
     updateFirst (userIdMatches p.user_id) (fun d => setFields d data) st.userprofile,
     st.jobs, st.applicationoutcome⟩
  | none => ⟨st.events, create_document st.userprofile data, st.jobs, st.applicationoutcome⟩

/-- Reading of claim C7 under test: take the nested `properties.channel` value
whenever that field is present (regardless of its value), fall back to the
top-level `channel` field only when the nested field is absent, and exclude
the event only when both fields are absent.  Compared against the source
behaviour `eventChannel`. -/
def claimedChannel (e : Doc) : Option BVal :=
  match (propsOf e).lookup "channel" with
  | some v => some v
  | none => e.lookup "channel"

/-! ## Claim theorems -/

/-- C1: for every pair of skill and requirement lists, the similarity computed
by the recommendation scoring is the intersection cardinality over the union
cardinality of the two lists viewed as sets, it is `0` when both sets are
empty, and lists with the same elements (whatever order and multiplicity)
always give the same result. -/
theorem jaccard_is_set_similarity (a b a2 b2 : List String) :
    (a.toFinset = ∅ → b.toFinset = ∅ → jaccard a b = 0) ∧
    (a.toFinset ≠ ∅ ∨ b.toFinset ≠ ∅ →
      jaccard a b
        = ((a.toFinset ∩ b.toFinset).card : ℚ) / ((a.toFinset ∪ b.toFinset).card : ℚ)) ∧
    ((∀ s, s ∈ a ↔ s ∈ a2) → (∀ s, s ∈ b ↔ s ∈ b2) → jaccard a b = jaccard a2 b2) := by
  refine ⟨?_, ?_, ?_⟩
  · intro ha hb
    simp [jaccard, ha, hb]
  · intro h
    have hne : ¬(a.toFinset = ∅ ∧ b.toFinset = ∅) := by tauto
    have hu : a.toFinset ∪ b.toFinset ≠ ∅ := by
      intro hcontra
      rcases Finset.union_eq_empty.mp hcontra with ⟨h1, h2⟩
      exact hne ⟨h1, h2⟩
    have hcard : (a.toFinset ∪ b.toFinset).card ≠ 0 := by
      simpa [Finset.card_eq_zero] using hu
    simp only [jaccard]
    rw [if_neg hne, if_neg hcard]
  · intro h1 h2
    have e1 : a.toFinset = a2.toFinset := by
      ext s; simpa [List.mem_toFinset] using h1 s
    have e2 : b.toFinset = b2.toFinset := by
      ext s; simpa [List.mem_toFinset] using h2 s
    simp only [jaccard, e1, e2]

/-- Witness for C1 at concrete lists: the two sides of each implication at
lists over `"python"`, `"java"`; duplicates and order do not matter. -/
theorem jaccard_is_set_similarity_witness :
    jaccard ["python"] ["python", "java"]
      = (((["python"] : List String).toFinset ∩ (["python", "java"] : List String).toFinset).card : ℚ)
        / (((["python"] : List String).toFinset ∪ (["python", "java"] : List String).toFinset).card : ℚ) ∧
    jaccard [] [] = 0 ∧
    jaccard ["python", "python"] ["java", "python"] = jaccard ["python"] ["python", "java"] := by
  refine ⟨(jaccard_is_set_similarity ["python"] ["python", "java"] [] []).2.1 ?_,
    (jaccard_is_set_similarity [] [] [] []).1 rfl rfl,
    (jaccard_is_set_similarity ["python", "python"] ["java", "python"] ["python"] ["python", "java"]).2.2 ?_ ?_⟩
  · left; simp
  · intro s; simp
  · intro s; simp; tauto

/-- C9: the raw Jaccard similarity is symmetric in its two list arguments. -/
theorem jaccard_symmetric (a b : List String) : jaccard a b = jaccard b a := by
  simp only [jaccard]
  rw [Finset.inter_comm, Finset.union_comm]
  by_cases h1 : a.toFinset = ∅ ∧ b.toFinset = ∅
  · rw [if_pos h1, if_pos ⟨h1.2, h1.1⟩]
  · have h2 : ¬(b.toFinset = ∅ ∧ a.toFinset = ∅) := fun h => h1 ⟨h.2, h.1⟩
    rw [if_neg h1, if_neg h2]

/-- C6: every integer age is classified into exactly one of the five fixed,
half-open, lower-inclusive buckets (with the listed concrete boundary cases),
a user with an integer age adds one to exactly that bucket of the age table,
and a user whose age is absent or not an integer leaves the table
unchanged. -/
theorem age_bucket_classification :
    (∀ a : ℤ,
      (ageBucket a = "<18" ↔ a < 18) ∧
      (ageBucket a = "18-24" ↔ 18 ≤ a ∧ a < 25) ∧
      (ageBucket a = "25-34" ↔ 25 ≤ a ∧ a < 35) ∧
      (ageBucket a = "35-44" ↔ 35 ≤ a ∧ a < 45) ∧
      (ageBucket a = "45+" ↔ 45 ≤ a)) ∧
    ageBucket 17 = "<18" ∧ ageBucket 18 = "18-24" ∧ ageBucket 24 = "18-24" ∧
    ageBucket 25 = "25-34" ∧ ageBucket 45 = "45+" ∧
    (∀ us u a, dget u "age" = .vint a →
      age_buckets (us ++ [u]) = bump (age_buckets us) (ageBucket a)) ∧
    (∀ us u, isIntVal (dget u "age") = false →
      age_buckets (us ++ [u]) = age_buckets us) := by
  refine ⟨?_, by decide, by decide, by decide, by decide, by decide, ?_, ?_⟩
  · intro a
    simp only [ageBucket]
    by_cases h1 : a < 18 <;> by_cases h2 : a < 25 <;> by_cases h3 : a < 35 <;>
      by_cases h4 : a < 45 <;> simp [h1, h2, h3, h4] <;> omega
  · intro us u a h
    simp only [age_buckets, List.foldl_append, List.foldl_cons, List.foldl_nil, h]
  · intro us u h
    simp only [age_buckets, List.foldl_append, List.foldl_cons, List.foldl_nil]
    cases hv : dget u "age" with
    | vint a => rw [hv] at h; simp [isIntVal] at h
    | vfloat q => rfl
    | vstr s => rfl
    | vlist l => rfl
    | vdict d => rfl
    | vnull => rfl

/-- Witness for C6: a user with age `30` bumps the `25-34` bucket, a user with
a string-valued age is excluded. -/
theorem age_bucket_classification_witness :
    age_buckets [[("age", BVal.vint 30)]] = bump (age_buckets []) (ageBucket 30) ∧
    age_buckets [[("age", BVal.vstr "thirty")]] = age_buckets [] ∧
    (ageBucket 30 = "25-34" ↔ 25 ≤ (30 : ℤ) ∧ (30 : ℤ) < 35) := by
  refine ⟨age_bucket_classification.2.2.2.2.2.2.1 [] [("age", BVal.vint 30)] 30 rfl,
    age_bucket_classification.2.2.2.2.2.2.2 [] [("age", BVal.vstr "thirty")] rfl,
    (age_bucket_classification.1 30).2.2.1⟩

/-- C4: when the `user_id` resolves to no stored profile, the recommendation
endpoint fails with the 404 not-found error, never with the generic 500
failure, and the two error values are distinct for every diagnostic
message. -/
theorem unknown_user_not_found (st : Store) (uid : String) (top_k : ℕ)
    (h : find_one_userprofile st uid = none) :
    recommend_jobs st uid top_k = .error ⟨404, "User not found"⟩ ∧
    (∀ msg, recommend_jobs st uid top_k ≠ .error ⟨500, msg⟩) ∧
    (∀ msg, (⟨404, "User not found"⟩ : HTTPError) ≠ ⟨500, msg⟩) := by
  refine ⟨?_, ?_, ?_⟩
  · simp [recommend_jobs, h]
  · intro msg hcontra
    rw [recommend_jobs, h] at hcontra
    simp at hcontra
  · intro msg hcontra
    simp at hcontra

/-- Witness for C4: an unknown user against the empty store. -/
theorem unknown_user_not_found_witness :
    recommend_jobs ⟨[], [], [], []⟩ "ghost" 5 = .error ⟨404, "User not found"⟩ ∧
    recommend_jobs ⟨[], [], [], []⟩ "ghost" 5 ≠ .error ⟨500, "db down"⟩ :=
  ⟨(unknown_user_not_found ⟨[], [], [], []⟩ "ghost" 5 rfl).1,
   (unknown_user_not_found ⟨[], [], [], []⟩ "ghost" 5 rfl).2.1 "db down"⟩

/-- C2: the per-candidate score stored in a recommendation entry is the
Jaccard similarity multiplied by `0.8` exactly when the job has a numeric
`min_experience`, the user a numeric `experience_years`, and the experience is
strictly below the threshold; it is the plain similarity when the comparison
fails or when either value is missing or non-numeric; and it is always rounded
to three decimal places. -/
theorem score_penalty_and_rounding (user job : Doc)
    (_hs : wfStrList (dget user "skills") = true)
    (_hr : wfStrList (dget job "requirements") = true) :
    (∀ me ey : ℚ, asNum (dget job "min_experience") = some me →
      asNum (dget user "experience_years") = some ey → ey < me →
      (scoreEntry user job).score
        = round3 (jaccard (strListOf (dget user "skills"))
            (strListOf (dget job "requirements")) * 0.8)) ∧
    (∀ me ey : ℚ, asNum (dget job "min_experience") = some me →
      asNum (dget user "experience_years") = some ey → ¬ey < me →
      (scoreEntry user job).score
        = round3 (jaccard (strListOf (dget user "skills"))
            (strListOf (dget job "requirements")))) ∧
    (asNum (dget job "min_experience") = none →
      (scoreEntry user job).score
        = round3 (jaccard (strListOf (dget user "skills"))
            (strListOf (dget job "requirements")))) ∧
    (asNum (dget user "experience_years") = none →
      (scoreEntry user job).score
        = round3 (jaccard (strListOf (dget user "skills"))
            (strListOf (dget job "requirements")))) := by
  refine ⟨?_, ?_, ?_, ?_⟩
  · intro me ey hme hey hlt
    simp [scoreEntry, rawScore, hme, hey, hlt]
  · intro me ey hme hey hnlt
    simp [scoreEntry, rawScore, hme, hey, hnlt]
  · intro hme
    cases hey : asNum (dget user "experience_years") <;>
      simp [scoreEntry, rawScore, hme, hey]
  · intro hey
    cases hme : asNum (dget job "min_experience") <;>
      simp [scoreEntry, rawScore, hme, hey]

/-- Witness for C2: an under-experienced user (one year against a threshold of
three) is penalised; a job without a threshold is not. -/
theorem score_penalty_and_rounding_witness :
    (scoreEntry [("skills", BVal.vlist ["python"]), ("experience_years", BVal.vint 1)]
        [("requirements", BVal.vlist ["python", "java"]), ("min_experience", BVal.vint 3)]).score
      = round3 (jaccard ["python"] ["python", "java"] * 0.8) ∧
    (scoreEntry [("skills", BVal.vlist ["python"]), ("experience_years", BVal.vint 1)]
        [("requirements", BVal.vlist ["python", "java"])]).score
      = round3 (jaccard ["python"] ["python", "java"]) := by
  refine ⟨(score_penalty_and_rounding
      [("skills", BVal.vlist ["python"]), ("experience_years", BVal.vint 1)]
      [("requirements", BVal.vlist ["python", "java"]), ("min_experience", BVal.vint 3)]
      rfl rfl).1 ((3 : ℤ) : ℚ) ((1 : ℤ) : ℚ) rfl rfl ?_,
    (score_penalty_and_rounding
      [("skills", BVal.vlist ["python"]), ("experience_years", BVal.vint 1)]
      [("requirements", BVal.vlist ["python", "java"])]
      rfl rfl).2.2.1 rfl⟩
  norm_num

/-- C5: the success-rate endpoint always returns, for every user id, the
record of that id, the number of outcome documents of the user, the number of
them whose outcome label is case-insensitively `"success"`, and the rounded
ratio of the two, with all-zero counts (not an error) for a user without
outcomes. -/
theorem success_rate_counts_and_total (st : Store) (uid : String) :
    success_rate st uid
      = ⟨uid,
         (st.applicationoutcome.filter (userIdMatches uid)).length,
         (st.applicationoutcome.filter (userIdMatches uid)).countP
           (fun o => isSuccessOutcome (dget o "outcome")),
         round3
           (if (st.applicationoutcome.filter (userIdMatches uid)).length = 0 then 0
            else ((st.applicationoutcome.filter (userIdMatches uid)).countP
                (fun o => isSuccessOutcome (dget o "outcome")) : ℚ)
              / ((st.applicationoutcome.filter (userIdMatches uid)).length : ℚ))⟩ ∧
    (∀ s, isSuccessOutcome (.vstr s) = (lowerStr s == "success")) ∧
    (st.applicationoutcome.filter (userIdMatches uid) = [] →
      success_rate st uid = ⟨uid, 0, 0, 0⟩) := by
  refine ⟨?_, fun s => rfl, ?_⟩
  · rw [success_rate]
    by_cases h : (st.applicationoutcome.filter (userIdMatches uid)).length = 0 <;>
      simp [h]
  · intro h
    simp [success_rate, h, round3]

/-- Witness for C5: a user with no outcomes gets zeros, `"SUCCESS"` counts
case-insensitively. -/
theorem success_rate_counts_and_total_witness :
    success_rate ⟨[], [], [], []⟩ "u9" = ⟨"u9", 0, 0, 0⟩ ∧
    isSuccessOutcome (.vstr "SUCCESS") = (lowerStr "SUCCESS" == "success") :=
  ⟨(success_rate_counts_and_total ⟨[], [], [], []⟩ "u9").2.2 rfl,
   (success_rate_counts_and_total ⟨[], [], [], []⟩ "u9").2.1 "SUCCESS"⟩

/-- C7 counterexample: an event whose nested `properties.channel` field is
present but empty, with a truthy top-level `channel`, is counted under the
top-level value, while the claim (fallback only when the nested field is
absent) selects the nested empty string. -/
theorem channel_fallback_counterexample :
    channel_counts
        [[("properties", BVal.vdict [("channel", BVal.vstr "")]),
          ("channel", BVal.vstr "tv")]]
      = [(BVal.vstr "tv", 1)] ∧
    claimedChannel
        [("properties", BVal.vdict [("channel", BVal.vstr "")]),
         ("channel", BVal.vstr "tv")]
      = some (BVal.vstr "") ∧
    BVal.vstr "" ≠ BVal.vstr "tv" := by
  refine ⟨rfl, rfl, ?_⟩
  intro h
  simp at h

/-- C7 amended: the overview takes the nested `properties.channel` value when
it is truthy; it falls back to the top-level `channel` field whenever the
nested value is absent, null, or otherwise falsy (such as an empty string),
not only when the nested field is absent; the chosen value is counted only
when it is itself truthy, and an event whose derived channel is falsy is
excluded rather than counted in an `"unknown"` bucket. -/
theorem channel_fallback_on_falsy (es : List Doc) (e : Doc) :
    (truthy (dget (propsOf e) "channel") = true →
      channel_counts (es ++ [e])
        = bumpB (channel_counts es) (dget (propsOf e) "channel")) ∧
    (truthy (dget (propsOf e) "channel") = false →
      truthy (dget e "channel") = true →
      channel_counts (es ++ [e])
        = bumpB (channel_counts es) (dget e "channel")) ∧
    (truthy (dget (propsOf e) "channel") = false →
      truthy (dget e "channel") = false →
      channel_counts (es ++ [e]) = channel_counts es) := by
  refine ⟨?_, ?_, ?_⟩
  · intro hn
    simp only [channel_counts, List.foldl_append, List.foldl_cons, List.foldl_nil,
      eventChannel, pyOr, hn, if_pos]
  · intro hn ht
    have h1 : eventChannel e = dget e "channel" := by simp [eventChannel, pyOr, hn]
    simp [channel_counts, List.foldl_append, h1, ht]
  · intro hn ht
    have h1 : eventChannel e = dget e "channel" := by simp [eventChannel, pyOr, hn]
    simp [channel_counts, List.foldl_append, h1, ht]

/-- Witness for C7 (amended): the counterexample event falls back to the
top-level channel; an event with truthy nested channel uses it; an event with
neither is excluded. -/
theorem channel_fallback_on_falsy_witness :
    channel_counts
        [[("properties", BVal.vdict [("channel", BVal.vstr "")]),
          ("channel", BVal.vstr "tv")]]
      = bumpB (channel_counts [])
          (dget [("properties", BVal.vdict [("channel", BVal.vstr "")]),
                 ("channel", BVal.vstr "tv")] "channel") ∧
    channel_counts [[("properties", BVal.vdict [("channel", BVal.vstr "radio")])]]
      = bumpB (channel_counts [])
          (dget (propsOf [("properties", BVal.vdict [("channel", BVal.vstr "radio")])]) "channel") ∧
    channel_counts [[("page", BVal.vstr "home")]] = channel_counts [] :=
  ⟨(channel_fallback_on_falsy [] _).2.1 rfl rfl,
   (channel_fallback_on_falsy [] _).1 rfl,
   (channel_fallback_on_falsy [] _).2.2 rfl rfl⟩

/-! ## Helper lemmas for the upsert merge -/

/-- Looking up the key just set by `setField` yields the new value. -/
theorem lookup_setField_self (d : Doc) (k : String) (v : BVal) :
    (setField d k v).lookup k = some v := by
  induction d with
  | nil => simp [setField]
  | cons kv rest ih =>
    obtain ⟨k2, v2⟩ := kv
    by_cases h : k2 = k
    · subst h
      simp [setField]
    · have hb : (k == k2) = false := by simp [Ne.symm h]
      simp [setField, h, List.lookup_cons, hb, ih]

/-- Setting one field leaves the lookup of every other key unchanged. -/
theorem lookup_setField_ne (d : Doc) (k k2 : String) (v : BVal) (h : k2 ≠ k) :
    (setField d k v).lookup k2 = d.lookup k2 := by
  have hb : (k2 == k) = false := by simp [h]
  induction d with
  | nil => simp [setField, List.lookup_cons, hb]
  | cons kv rest ih =>
    obtain ⟨k3, v3⟩ := kv
    by_cases h3 : k3 = k
    · subst h3
      simp [setField, List.lookup_cons, hb]
    · simp [setField, h3, List.lookup_cons, ih]

/-- Merging a set of fields leaves the lookup of every key outside the set
unchanged. -/
theorem lookup_setFields_none (data : Doc) (d : Doc) (k : String)
    (h : data.lookup k = none) :
    (setFields d data).lookup k = d.lookup k := by
  induction data generalizing d with
  | nil => simp [setFields]
  | cons kv rest ih =>
    obtain ⟨k1, v1⟩ := kv
    rw [List.lookup_cons] at h
    by_cases hk : k = k1
    · subst hk
      simp at h
    · have h2 : (k == k1) = false := by simp [hk]
      rw [h2] at h
      have step : setFields d ((k1, v1) :: rest) = setFields (setField d k1 v1) rest := by
        simp [setFields]
      rw [step, ih _ h, lookup_setField_ne _ _ _ _ hk]

/-- A key bound in a duplicate-free field set reads back its bound value after
the merge. -/
theorem lookup_setFields_some (data : Doc) (d : Doc) (k : String) (v : BVal)
    (hnd : (data.map Prod.fst).Nodup) (h : data.lookup k = some v) :
    (setFields d data).lookup k = some v := by
  induction data generalizing d with
  | nil => simp at h
  | cons kv rest ih =>
    obtain ⟨k1, v1⟩ := kv
    have step : setFields d ((k1, v1) :: rest) = setFields (setField d k1 v1) rest := by
      simp [setFields]
    rw [List.lookup_cons] at h
    by_cases hk : k = k1
    · subst hk
      simp only [beq_self_eq_true] at h
      have hmem : k ∉ rest.map Prod.fst := by
        have := hnd
        simp only [List.map_cons, List.nodup_cons] at this
        exact this.1
      have hnone : rest.lookup k = none := by
        rw [List.lookup_eq_none_iff]
        intro p hp
        rw [bne_iff_ne]
        intro heq
        exact hmem (by rw [heq]; exact List.mem_map_of_mem Prod.fst hp)
      rw [step, lookup_setFields_none _ _ _ hnone, lookup_setField_self]
      simpa using h
    · have h2 : (k == k1) = false := by simp [hk]
      rw [h2] at h
      have hnd2 : (rest.map Prod.fst).Nodup := by
        simp only [List.map_cons, List.nodup_cons] at hnd
        exact hnd.2
      rw [step]
      exact ih (setField d k1 v1) hnd2 h

/-- The keys contributed by one optional payload entry. -/
theorem optEntry_keys_sublist (k : String) (ov : Option BVal) :
    List.Sublist ((optEntry k ov).map Prod.fst) [k] := by
  cases ov with
  | none => exact List.nil_sublist _
  | some v => exact List.Sublist.refl _

/-- The dumped payload binds every field name at most once. -/
theorem payloadData_keys_nodup (p : UpsertUserProfileRequest) :
    ((payloadData p).map Prod.fst).Nodup := by
  have hsub : List.Sublist ((payloadData p).map Prod.fst)
      (["user_id"] ++ ["name"] ++ ["email"] ++ ["age"] ++ ["gender"] ++ ["location"]
        ++ ["education"] ++ ["experience_years"] ++ ["skills"] ++ ["channel"]) := by
    simp only [payloadData, List.map_append]
    exact ((((((((((List.Sublist.refl ["user_id"]).append
      (optEntry_keys_sublist _ _)).append (optEntry_keys_sublist _ _)).append
      (optEntry_keys_sublist _ _)).append (optEntry_keys_sublist _ _)).append
      (optEntry_keys_sublist _ _)).append (optEntry_keys_sublist _ _)).append
      (optEntry_keys_sublist _ _)).append (optEntry_keys_sublist _ _)).append
      (optEntry_keys_sublist _ _))
  exact List.Nodup.sublist hsub (by decide)

/-- Updating the first matching document rewrites exactly the document that
`find?` returned, provided the rewrite preserves the match. -/
theorem find?_updateFirst (q : Doc → Bool) (f : Doc → Doc) (l : List Doc) (e : Doc)
    (h : l.find? q = some e) (hf : q (f e) = true) :
    (updateFirst q f l).find? q = some (f e) := by
  induction l with
  | nil => simp at h
  | cons d rest ih =>
    by_cases hd : q d = true
    · rw [List.find?_cons_of_pos _ hd] at h
      injection h with h
      subst h
      rw [updateFirst, if_pos hd, List.find?_cons_of_pos _ hf]
    · rw [List.find?_cons_of_neg _ hd] at h
      rw [updateFirst, if_neg hd, List.find?_cons_of_neg _ hd]
      exact ih h

/-- C8: upserting a payload for an existing `user_id` merges exactly the
non-null supplied fields into the stored record: the stored profile becomes
the old document with the supplied fields set, every supplied field reads back
its new value, and every field omitted or null in the submission reads back
its previously stored value. -/
theorem upsert_existing_merges (st : Store) (p : UpsertUserProfileRequest) (e : Doc)
    (h : find_one_userprofile st p.user_id = some e) :
    find_one_userprofile (upsert_user_profile st p) p.user_id
      = some (setFields e (payloadData p)) ∧
    (∀ k v, (payloadData p).lookup k = some v →
      dget (setFields e (payloadData p)) k = v) ∧
    (∀ k, (payloadData p).lookup k = none →
      dget (setFields e (payloadData p)) k = dget e k) := by
  have hsome : ∀ k v, (payloadData p).lookup k = some v →
      dget (setFields e (payloadData p)) k = v := by
    intro k v hkv
    rw [dget, lookup_setFields_some _ _ _ _ (payloadData_keys_nodup p) hkv]
  have hnone : ∀ k, (payloadData p).lookup k = none →
      dget (setFields e (payloadData p)) k = dget e k := by
    intro k hk
    rw [dget, dget, lookup_setFields_none _ _ _ hk]
  refine ⟨?_, hsome, hnone⟩
  have huid : (payloadData p).lookup "user_id" = some (.vstr p.user_id) := rfl
  have hd := hsome "user_id" (.vstr p.user_id) huid
  have hmatch : userIdMatches p.user_id (setFields e (payloadData p)) = true := by
    simp [userIdMatches, hd]
  have hup : (upsert_user_profile st p).userprofile
      = updateFirst (userIdMatches p.user_id)
          (fun d => setFields d (payloadData p)) st.userprofile := by
    rw [upsert_user_profile, h]
  rw [find_one_userprofile, hup]
  rw [find_one_userprofile] at h
  exact find?_updateFirst _ _ _ _ h hmatch

/-- Witness for C8: submitting `{user_id: "u1", age: 30}` and then
`{user_id: "u1", name: "A"}` leaves both `age = 30` and `name = "A"` in the
stored profile. -/
theorem upsert_existing_merges_witness :
    dget (setFields [("user_id", BVal.vstr "u1"), ("age", BVal.vint 30)]
      (payloadData ⟨"u1", some "A", none, none, none, none, none, none, none, none⟩)) "name"
      = BVal.vstr "A" ∧
    dget (setFields [("user_id", BVal.vstr "u1"), ("age", BVal.vint 30)]
      (payloadData ⟨"u1", some "A", none, none, none, none, none, none, none, none⟩)) "age"
      = BVal.vint 30 :=
  ⟨(upsert_existing_merges
      ⟨[], [[("user_id", BVal.vstr "u1"), ("age", BVal.vint 30)]], [], []⟩
      ⟨"u1", some "A", none, none, none, none, none, none, none, none⟩
      [("user_id", BVal.vstr "u1"), ("age", BVal.vint 30)] rfl).2.1 "name" (BVal.vstr "A") rfl,
   ((upsert_existing_merges
      ⟨[], [[("user_id", BVal.vstr "u1"), ("age", BVal.vint 30)]], [], []⟩
      ⟨"u1", some "A", none, none, none, none, none, none, none, none⟩
      [("user_id", BVal.vstr "u1"), ("age", BVal.vint 30)] rfl).2.2 "age" rfl).trans rfl⟩

/-- C3: for every existing user and every `top_k`, the endpoint returns a
recommendation list sorted non-increasing by score, of length at most `top_k`
and at most the number of candidate jobs scanned, with `top_k = 0` yielding
the empty list. -/
theorem recommendations_ranked_and_bounded (st : Store) (uid : String) (top_k : ℕ)
    (u : Doc) (hu : find_one_userprofile st uid = some u) :
    ∃ recs : List ScoredJob,
      recommend_jobs st uid top_k = .ok (uid, recs) ∧
      recs.Pairwise scoreGE ∧
      recs.length ≤ top_k ∧
      recs.length ≤ (get_documents st.jobs 1000).length ∧
      (top_k = 0 → recs = []) := by
  refine ⟨(((get_documents st.jobs 1000).map (scoreEntry u)).insertionSort scoreGE).take top_k,
    ?_, ?_, ?_, ?_, ?_⟩
  · rw [recommend_jobs, hu]
  · exact List.Pairwise.sublist (List.take_sublist _ _)
      (List.sorted_insertionSort scoreGE _)
  · rw [List.length_take]
    exact min_le_left _ _
  · rw [List.length_take]
    refine le_trans (min_le_right _ _) (le_of_eq ?_)
    rw [List.length_insertionSort, List.length_map]
  · intro h
    subst h
    rfl

/-- Witness for C3: a one-user, one-job store with `top_k = 0`. -/
theorem recommendations_ranked_and_bounded_witness :
    ∃ recs : List ScoredJob,
      recommend_jobs
          ⟨[], [[("user_id", BVal.vstr "u1")]], [[("job_id", BVal.vstr "j1")]], []⟩
          "u1" 0
        = .ok ("u1", recs) ∧
      recs.Pairwise scoreGE ∧
      recs.length ≤ 0 ∧
      recs.length ≤ (get_documents [[("job_id", BVal.vstr "j1")]] 1000).length ∧
      (0 = 0 → recs = []) :=
  recommendations_ranked_and_bounded
    ⟨[], [[("user_id", BVal.vstr "u1")]], [[("job_id", BVal.vstr "j1")]], []⟩
    "u1" 0 [("user_id", BVal.vstr "u1")] rfl

/-- The Jaccard similarity always lies in the closed unit interval. -/
theorem jaccard_mem_unit (a b : List String) : 0 ≤ jaccard a b ∧ jaccard a b ≤ 1 := by
  simp only [jaccard]
  by_cases h : a.toFinset = ∅ ∧ b.toFinset = ∅
  · rw [if_pos h]
    norm_num
  · rw [if_neg h]
    by_cases hu : (a.toFinset ∪ b.toFinset).card = 0
    · rw [if_pos hu]
      norm_num
    · rw [if_neg hu]
      have hc : (0 : ℚ) < ((a.toFinset ∪ b.toFinset).card : ℚ) := by
        exact_mod_cast Nat.pos_of_ne_zero hu
      constructor
      · exact div_nonneg (by positivity) (le_of_lt hc)
      · rw [div_le_one hc]
        exact_mod_cast Finset.card_le_card Finset.inter_subset_union

/-- The raw per-job score lies in the closed unit interval: the penalty factor
only shrinks a nonnegative similarity. -/
theorem rawScore_mem_unit (user job : Doc) :
    0 ≤ rawScore user job ∧ rawScore user job ≤ 1 := by
  obtain ⟨hj1, hj2⟩ := jaccard_mem_unit (strListOf (dget user "skills"))
    (strListOf (dget job "requirements"))
  simp only [rawScore]
  cases asNum (dget job "min_experience") with
  | none => exact ⟨hj1, hj2⟩
  | some me =>
    cases asNum (dget user "experience_years") with
    | none => exact ⟨hj1, hj2⟩
    | some ey =>
      show 0 ≤ (if ey < me
            then jaccard (strListOf (dget user "skills"))
              (strListOf (dget job "requirements")) * 0.8
            else jaccard (strListOf (dget user "skills"))
              (strListOf (dget job "requirements")))
          ∧ (if ey < me
            then jaccard (strListOf (dget user "skills"))
              (strListOf (dget job "requirements")) * 0.8
            else jaccard (strListOf (dget user "skills"))
              (strListOf (dget job "requirements"))) ≤ 1
      by_cases hlt : ey < me
      · rw [if_pos hlt]
        have h08 : (0.8 : ℚ) = 4 / 5 := by norm_num
        rw [h08]
        constructor
        · nlinarith
        · nlinarith
      · rw [if_neg hlt]
        exact ⟨hj1, hj2⟩

/-- Rounding to three decimals keeps a value of the unit interval inside the
unit interval. -/
theorem round3_mem_unit (q : ℚ) (h0 : 0 ≤ q) (h1 : q ≤ 1) :
    0 ≤ round3 q ∧ round3 q ≤ 1 := by
  have hmono : ∀ x y : ℚ, x ≤ y → round x ≤ round y := by
    intro x y hxy
    rw [round_eq, round_eq]
    exact Int.floor_le_floor (by linarith)
  have hl : (0 : ℤ) ≤ round (q * 1000) := by
    have hstep := hmono 0 (q * 1000) (by nlinarith)
    simpa using hstep
  have hr : round (q * 1000) ≤ 1000 := by
    have hstep := hmono (q * 1000) 1000 (by nlinarith)
    simpa using hstep
  constructor
  · rw [round3]
    apply div_nonneg _ (by norm_num)
    exact_mod_cast hl
  · rw [round3]
    rw [div_le_one (by norm_num : (0 : ℚ) < 1000)]
    exact_mod_cast hr

/-- C10: every score in a successful recommendation response lies in the
closed interval from `0` to `1`. -/
theorem recommendation_scores_unit_interval (st : Store) (uid : String) (top_k : ℕ)
    (s : String) (recs : List ScoredJob)
    (h : recommend_jobs st uid top_k = .ok (s, recs)) :
    ∀ r ∈ recs, 0 ≤ r.score ∧ r.score ≤ 1 := by
  intro r hr
  rw [recommend_jobs] at h
  cases hu : find_one_userprofile st uid with
  | none =>
    rw [hu] at h
    simp at h
  | some u =>
    rw [hu] at h
    simp only [Except.ok.injEq, Prod.mk.injEq] at h
    obtain ⟨-, hrecs⟩ := h
    subst hrecs
    have h1 : r ∈ ((get_documents st.jobs 1000).map (scoreEntry u)).insertionSort scoreGE :=
      List.Sublist.mem hr (List.take_sublist _ _)
    have hmem : r ∈ (get_documents st.jobs 1000).map (scoreEntry u) :=
      (List.mem_insertionSort scoreGE).mp h1
    obtain ⟨job, _hjob, rfl⟩ := List.mem_map.mp hmem
    have hraw := rawScore_mem_unit u job
    exact round3_mem_unit _ hraw.1 hraw.2

/-- Witness for C10: the single recommendation of a one-user, one-job store
has a score inside the unit interval. -/
theorem recommendation_scores_unit_interval_witness :
    0 ≤ (scoreEntry [("user_id", BVal.vstr "u1"), ("skills", BVal.vlist ["python"])]
          [("job_id", BVal.vstr "j1"), ("requirements", BVal.vlist ["python", "java"])]).score ∧
    (scoreEntry [("user_id", BVal.vstr "u1"), ("skills", BVal.vlist ["python"])]
          [("job_id", BVal.vstr "j1"), ("requirements", BVal.vlist ["python", "java"])]).score ≤ 1 :=
  recommendation_scores_unit_interval
    ⟨[], [[("user_id", BVal.vstr "u1"), ("skills", BVal.vlist ["python"])]],
     [[("job_id", BVal.vstr "j1"), ("requirements", BVal.vlist ["python", "java"])]], []⟩
    "u1" 5 "u1"
    [scoreEntry [("user_id", BVal.vstr "u1"), ("skills", BVal.vlist ["python"])]
      [("job_id", BVal.vstr "j1"), ("requirements", BVal.vlist ["python", "java"])]]
    rfl
    (scoreEntry [("user_id", BVal.vstr "u1"), ("skills", BVal.vlist ["python"])]
      [("job_id", BVal.vstr "j1"), ("requirements", BVal.vlist ["python", "java"])])
    (List.mem_singleton.mpr rfl)
